import Mathlib

/-!
Verification of the incremental stream-assembly core of the flight-scanner
frontend.  The text pipeline (`processText`), the SQL formatting fallback
(`processSqlChunk`), the data-label stripping (`stripDataLabel`) and the
event-driven session step function (`step`) are shallow embeddings of the
corresponding code in `src/App.js`; strings are modelled as `List Char`
with `String` wrappers.  External collaborators (the browser's
`JSON.parse`, the `sql-formatter` package) are modelled as parameters
returning `Option` values, `none` standing for a thrown exception.
-/

/-- Whitespace class of the JavaScript regex `\s` (ASCII part). -/
def isJsSpace (c : Char) : Bool :=
  c == ' ' || c == '\t' || c == '\n' || c == '\r' || c == '\x0b' || c == '\x0c'

/-- Punctuation class `[.,!?)]` of the spacing rule in `processText`. -/
def isPunct (c : Char) : Bool :=
  c == '.' || c == ',' || c == '!' || c == '?' || c == ')'

/-- `isPref p s` is true when `p` is a prefix of `s` (char-for-char). -/
def isPref : List Char → List Char → Bool
  | [], _ => true
  | _ :: _, [] => false
  | p :: ps, s :: ss => p == s && isPref ps ss

/-- Split `s` at the first occurrence of `pat`: returns `(before, after)`
with `s = before ++ pat ++ after`, scanning left to right as a regex
engine does. -/
def splitFirst (pat : List Char) : List Char → Option (List Char × List Char)
  | [] => if pat.isEmpty then some ([], []) else none
  | c :: rest =>
    if isPref pat (c :: rest) then some ([], (c :: rest).drop pat.length)
    else
      match splitFirst pat rest with
      | some (a, b) => some (c :: a, b)
      | none => none

/-- Opening delimiter of the reasoning span removed by the first rule of
`processText` in `src/App.js`. -/
def thinkOpenTag : List Char := "<think>".toList

/-- Closing delimiter of the reasoning span. -/
def thinkCloseTag : List Char := "</think>".toList

/-- Tail of the opening delimiter after its marker character. -/
def opRest : List Char := "think>".toList

/-- Tail of the closing delimiter after its marker character. -/
def clRest : List Char := "/think>".toList

/-- Fuel-indexed worker for the global regex replace
`text.replace(/<think>[\s\S]*?<\/think>/g, '')`: find the first opening
tag, lazily match up to the first closing tag, drop the span, continue
after it.  If either tag is missing the remainder is kept unchanged. -/
def removeThinkGo : Nat → List Char → List Char
  | 0, s => s
  | n + 1, s =>
    match splitFirst thinkOpenTag s with
    | none => s
    | some (a, rest) =>
      match splitFirst thinkCloseTag rest with
      | none => s
      | some (_b, rest2) => a ++ removeThinkGo n rest2

/-- Think-span removal, with enough fuel for any input. -/
def removeThink (s : List Char) : List Char := removeThinkGo s.length s

/-- Rule `([.,!?)])([^\s])  ->  '$1 $2'`: insert a space after a punctuation
character directly followed by a non-space; both matched characters are
consumed before scanning resumes, as the JavaScript global replace does. -/
def punctSpace : List Char → List Char
  | c1 :: c2 :: rest =>
    if isPunct c1 && !isJsSpace c2 then c1 :: ' ' :: c2 :: punctSpace rest
    else c1 :: punctSpace (c2 :: rest)
  | s => s

/-- Rule `([^\s])\(  ->  '$1 ('`: insert a space before an opening
parenthesis not already preceded by whitespace. -/
def parenSpace : List Char → List Char
  | c1 :: c2 :: rest =>
    if !isJsSpace c1 && c2 == '(' then c1 :: ' ' :: '(' :: parenSpace rest
    else c1 :: parenSpace (c2 :: rest)
  | s => s

/-- Rule `\|([^\s|])  ->  '| $1'`: pad a table pipe on the right. -/
def pipeAfterSpace : List Char → List Char
  | c1 :: c2 :: rest =>
    if c1 == '|' && !isJsSpace c2 && c2 != '|' then
      '|' :: ' ' :: c2 :: pipeAfterSpace rest
    else c1 :: pipeAfterSpace (c2 :: rest)
  | s => s

/-- Rule `([^\s|])\|  ->  '$1 |'`: pad a table pipe on the left. -/
def pipeBeforeSpace : List Char → List Char
  | c1 :: c2 :: rest =>
    if !isJsSpace c1 && c1 != '|' && c2 == '|' then
      c1 :: ' ' :: '|' :: pipeBeforeSpace rest
    else c1 :: pipeBeforeSpace (c2 :: rest)
  | s => s

/-- Rule `###([^\s])  ->  '### $1'`: space after a third-level heading
marker. -/
def headerSpace : List Char → List Char
  | '#' :: '#' :: '#' :: d :: rest =>
    if !isJsSpace d then '#' :: '#' :: '#' :: ' ' :: d :: headerSpace rest
    else '#' :: headerSpace ('#' :: '#' :: d :: rest)
  | c :: rest => c :: headerSpace rest
  | [] => []

/-- Rule `\*\*([^\s])  ->  '** $1'`: space after an opening bold marker. -/
def boldOpenSpace : List Char → List Char
  | '*' :: '*' :: d :: rest =>
    if !isJsSpace d then '*' :: '*' :: ' ' :: d :: boldOpenSpace rest
    else '*' :: boldOpenSpace ('*' :: d :: rest)
  | c :: rest => c :: boldOpenSpace rest
  | [] => []

/-- Rule `([^\s])\*\*  ->  '$1 **'`: space before a closing bold marker. -/
def boldCloseSpace : List Char → List Char
  | c :: '*' :: '*' :: rest =>
    if !isJsSpace c then c :: ' ' :: '*' :: '*' :: boldCloseSpace rest
    else c :: boldCloseSpace ('*' :: '*' :: rest)
  | c :: rest => c :: boldCloseSpace rest
  | [] => []

/-- The `processText` pipeline of `src/App.js` on character lists: the seven
regex replacements applied in source order. -/
def processTextChars (s : List Char) : List Char :=
  boldCloseSpace (boldOpenSpace (headerSpace (pipeBeforeSpace (pipeAfterSpace
    (parenSpace (punctSpace (removeThink s)))))))

/-- `processText` from `src/App.js`, the chunk normalizer applied to the
cumulative answer buffer after every append. -/
def processText (s : String) : String :=
  (processTextChars s.toList).asString

/-- `processSqlChunk` from `src/App.js`: formats the accumulated SQL buffer
with the external `sql-formatter`; a thrown formatting error — modelled as
`none` — falls back to the raw chunk.  `fmt` is the external formatter. -/
def processSqlChunk (fmt : String → Option String) (chunk : String) : String :=
  match fmt chunk with
  | some formattedSql => formattedSql
  | none => chunk

/-- The envelope cleanup `event.data.replace(/^data:\s*/, '')`: drop one
leading `data:` label and the whitespace run after it. -/
def stripDataLabel (s : String) : String :=
  if isPref "data:".toList s.toList then
    ((s.toList.drop 5).dropWhile isJsSpace).asString
  else s

/-- Trim leading and trailing whitespace from a character list. -/
def trimChars (s : List Char) : List Char :=
  (((s.dropWhile isJsSpace).reverse).dropWhile isJsSpace).reverse

/-- Split a character list on newline characters. -/
def splitLines : List Char → List (List Char)
  | [] => [[]]
  | '\n' :: rest => [] :: splitLines rest
  | c :: rest =>
    match splitLines rest with
    | [] => [[c]]
    | l :: ls => (c :: l) :: ls

/-- `occurs pat s` is true when `pat` appears as a contiguous substring. -/
def occurs (pat s : List Char) : Bool :=
  (splitFirst pat s).isSome

/-- Structured view of a rendered answer: title, flight items, summary. -/
structure Segmented where
  title : Option String
  items : List String
  summary : Option String
  deriving DecidableEq

/-- Modelled from the spec: no Response Segmenter exists under `src/` (the
view renders the markdown snapshot directly), so this follows §4.4 of the
spec: split the rendered answer on the separator (newline), discard
blank parts, take as title the first part whose trimmed text starts with a
heading marker (markers stripped, text trimmed), as items every part
containing the item-marker symbol `✈`, and as summary the first part
containing the phrase `Summary:`. -/
def segmentAnswer (rendered : String) : Segmented :=
  let parts := (splitLines rendered.toList).filter (fun p => !(trimChars p).isEmpty)
  let title := (parts.find? (fun p =>
    match trimChars p with
    | '#' :: _ => true
    | _ => false)).map (fun p => (trimChars ((trimChars p).dropWhile (· == '#'))).asString)
  let items := (parts.filter (fun p => p.contains '✈')).map List.asString
  let summary := (parts.find? (fun p => occurs "Summary:".toList p)).map List.asString
  ⟨title, items, summary⟩

/-- Parsed transport envelope `{"type": ..., "content": ...}` as produced
by the external `JSON.parse` on a fragment payload. -/
structure Fragment where
  ftype : String
  content : String
  deriving DecidableEq

/-- Whether a session's `EventSource` is still open.  The code never marks
a session cancelled: a connection is closed only by its own `error` or
`done` handler. -/
inductive SessStatus where
  | opened
  | closed
  deriving DecidableEq

/-- One invocation of `handleSubmit` that passed validation: its query
text (used for the transport URL), its connection state, and the closure
buffers `currentAnswer` and `currentSql`. -/
structure Session where
  query : String
  status : SessStatus
  currentAnswer : String
  currentSql : String
  deriving DecidableEq

/-- The React component state plus all sessions ever started, in start
order.  `answer` and `sqlQuery` are the published snapshots; `toasts`
records user-visible notifications. -/
structure World where
  question : String
  answer : String
  sqlQuery : String
  loading : Bool
  streamingSql : Bool
  toasts : List String
  sessions : List Session
  deriving DecidableEq

/-- External stimuli: a submission (argument `none` models calling
`handleSubmit()` with no argument), an `onmessage` event, an `onerror`
event, or the named `done` event, each addressed to the session whose
`EventSource` fired it. -/
inductive Ev where
  | submit (query : Option String)
  | message (sid : Nat) (data : String)
  | error (sid : Nat)
  | done (sid : Nat)

/-- The `data.type === 'answer'` branch of the `onmessage` handler:
append the fragment content to the closure buffer and publish
`processText` of the whole buffer. -/
def applyAnswerFrag (sid : Nat) (content : String) (w : World) : World :=
  match w.sessions[sid]? with
  | none => w
  | some s =>
    match s.status with
    | .closed => w
    | .opened =>
      let currentAnswer := s.currentAnswer ++ content
      { w with sessions := w.sessions.set sid { s with currentAnswer := currentAnswer },
               answer := processText currentAnswer }

/-- The `data.type === 'sql'` branch of the `onmessage` handler. -/
def applySqlFrag (fmt : String → Option String) (sid : Nat) (content : String)
    (w : World) : World :=
  match w.sessions[sid]? with
  | none => w
  | some s =>
    match s.status with
    | .closed => w
    | .opened =>
      let currentSql := s.currentSql ++ content
      { w with sessions := w.sessions.set sid { s with currentSql := currentSql },
               sqlQuery := processSqlChunk fmt currentSql }

/-- One step of the component, following `handleSubmit` and the handlers
it installs in `src/App.js`.  `parse` is the external `JSON.parse`
(returning `none` on a thrown parse error) and `fmt` the external
`sql-formatter`.  A `message`, `error` or `done` event only has an effect
while its session's `EventSource` is still open. -/
def step (parse : String → Option Fragment) (fmt : String → Option String)
    (ev : Ev) (w : World) : World :=
  match ev with
  | .submit query =>
    let currentQuestion :=
      match query with
      | none => w.question
      | some q => if q = "" then w.question else q
    if trimChars currentQuestion.toList = [] then
      { w with toasts := w.toasts ++ ["Please enter a question"] }
    else
      { w with loading := true, streamingSql := true, answer := "", sqlQuery := "",
               sessions := w.sessions ++ [⟨currentQuestion, .opened, "", ""⟩] }
  | .message sid data =>
    match w.sessions[sid]? with
    | none => w
    | some s =>
      match s.status with
      | .closed => w
      | .opened =>
        let cleanData := stripDataLabel data
        if cleanData = "" then w
        else
          match parse cleanData with
          | none => w
          | some f =>
            if f.ftype = "answer" then applyAnswerFrag sid f.content w
            else if f.ftype = "sql" then applySqlFrag fmt sid f.content w
            else w
  | .error sid =>
    match w.sessions[sid]? with
    | none => w
    | some s =>
      match s.status with
      | .closed => w
      | .opened =>
        { w with sessions := w.sessions.set sid { s with status := .closed },
                 loading := false }
  | .done sid =>
    match w.sessions[sid]? with
    | none => w
    | some s =>
      match s.status with
      | .closed => w
      | .opened =>
        { w with sessions := w.sessions.set sid { s with status := .closed },
                 loading := false }

/-- Concatenation of a list of fragment contents in arrival order. -/
def joinAll (cs : List String) : String := cs.foldl (fun a b => a ++ b) ""

/-- Example `JSON.parse`: recognises two payloads, fails on the rest. -/
def exParse : String → Option Fragment := fun s =>
  if s = "J1" then some ⟨"answer", "OLD"⟩
  else if s = "J2" then some ⟨"answer", "fresh"⟩
  else none

/-- Example `JSON.parse` that fails on every payload. -/
def badParse : String → Option Fragment := fun _ => none

/-- Example formatter that always fails (falls back to the raw buffer). -/
def exFmt : String → Option String := fun _ => none

/-- Example formatter that pretty-prints one complete statement. -/
def exFmtOk : String → Option String := fun s =>
  if s = "SELECT 1" then some "SELECT\n  1" else none

/-- Blank initial component state. -/
def w0 : World := ⟨"", "", "", false, false, [], []⟩

/-- Component state with question text typed into the input field. -/
def wStored : World := ⟨"cheapest flight to Hanoi?", "", "", false, false, [], []⟩

/-- State after one valid submission: one open session. -/
def wOpen : World := step exParse exFmt (.submit (some "q")) w0

/-- State after that session received one answer fragment. -/
def wErr : World := step exParse exFmt (.message 0 "J1") wOpen

/-- Trace for the double-submission scenario: first query started. -/
def wFirst : World := step exParse exFmt (.submit (some "first")) w0

/-- Second query started while the first stream is still open. -/
def wSecond : World := step exParse exFmt (.submit (some "second")) wFirst

/-- A fragment of the first stream arriving after the second start. -/
def wLate : World := step exParse exFmt (.message 0 "J1") wSecond

/-- Final rendered answer built from the two example answer fragments. -/
def exRendered : String :=
  processText ("### Title" ++
    "\n✈️ Flight A\n---\n✈️ Flight B\n---\n**Summary:** cheapest is A")

theorem isPref_append (p r : List Char) : isPref p (p ++ r) = true := by
  induction p with
  | nil => rfl
  | cons c cs ih => simp [isPref, ih]

theorem isPref_reconstruct : ∀ (p s : List Char), isPref p s = true →
    p ++ s.drop p.length = s := by
  intro p
  induction p with
  | nil => intro s _; simp
  | cons c cs ih =>
    intro s h
    cases s with
    | nil => simp [isPref] at h
    | cons d ds =>
      simp only [isPref, Bool.and_eq_true, beq_iff_eq] at h
      obtain ⟨rfl, h2⟩ := h
      simpa using ih ds h2

theorem splitFirst_some : ∀ (s pat a b : List Char),
    splitFirst pat s = some (a, b) → s = a ++ pat ++ b := by
  intro s
  induction s with
  | nil =>
    intro pat a b h
    simp only [splitFirst] at h
    split at h
    · next hp =>
      simp only [Option.some.injEq, Prod.mk.injEq] at h
      obtain ⟨rfl, rfl⟩ := h
      simp [List.isEmpty_iff.mp hp]
    · exact absurd h (by simp)
  | cons c rest ih =>
    intro pat a b h
    simp only [splitFirst] at h
    split at h
    · next hp =>
      simp only [Option.some.injEq, Prod.mk.injEq] at h
      obtain ⟨rfl, rfl⟩ := h
      have := isPref_reconstruct pat (c :: rest) hp
      simpa using this.symm
    · next hp =>
      cases hm : splitFirst pat rest with
      | none => rw [hm] at h; exact absurd h (by simp)
      | some ab =>
        obtain ⟨a', b'⟩ := ab
        rw [hm] at h
        simp only [Option.some.injEq, Prod.mk.injEq] at h
        obtain ⟨rfl, rfl⟩ := h
        have := ih pat a' b' hm
        simp [this]

/-- First occurrence of a pattern that starts with a character absent from
`a` is found right after `a`. -/
theorem splitFirst_at_marker : ∀ (a : List Char) (hc : Char) (pt r : List Char),
    hc ∉ a → splitFirst (hc :: pt) (a ++ (hc :: pt) ++ r) = some (a, r) := by
  intro a
  induction a with
  | nil =>
    intro hc pt r _
    have hpre : isPref (hc :: pt) (hc :: (pt ++ r)) = true := isPref_append (hc :: pt) r
    have hdrop : List.drop (hc :: pt).length (hc :: (pt ++ r)) = r := by
      simp [List.drop_left]
    simp only [List.nil_append, List.cons_append, splitFirst, List.append_eq, hpre,
      if_true, hdrop]
  | cons x a' ih =>
    intro hc pt r hmem
    have hx : hc ≠ x := fun h => hmem (h ▸ List.mem_cons_self x a')
    have hmem' : hc ∉ a' := fun h => hmem (List.mem_cons_of_mem x h)
    have hnp : isPref (hc :: pt) (x :: (a' ++ hc :: (pt ++ r))) = false := by
      simp [isPref, hx]
    have hrec : splitFirst (hc :: pt) (a' ++ hc :: (pt ++ r)) = some (a', r) := by
      have h := ih hc pt r hmem'
      simpa [List.cons_append, List.append_assoc] using h
    simp only [List.cons_append, List.append_assoc, splitFirst, List.append_eq, hnp,
      Bool.false_eq_true, if_false, hrec]

/-- Searching in `a ++ c` with the marker character absent from `a`
reduces to searching in `c`. -/
theorem splitFirst_append_of_notMem : ∀ (a : List Char) (hc : Char) (pt c : List Char),
    hc ∉ a → splitFirst (hc :: pt) (a ++ c) =
      (splitFirst (hc :: pt) c).map (fun p => (a ++ p.1, p.2)) := by
  intro a
  induction a with
  | nil =>
    intro hc pt c _
    cases h : splitFirst (hc :: pt) c <;> simp [h]
  | cons x a' ih =>
    intro hc pt c hmem
    have hx : hc ≠ x := fun h => hmem (h ▸ List.mem_cons_self x a')
    have hmem' : hc ∉ a' := fun h => hmem (List.mem_cons_of_mem x h)
    have hnp : isPref (hc :: pt) (x :: (a' ++ c)) = false := by
      simp [isPref, hx]
    simp only [List.cons_append, splitFirst, List.append_eq, hnp,
      Bool.false_eq_true, if_false]
    rw [ih hc pt c hmem']
    cases h : splitFirst (hc :: pt) c <;> simp [h]

theorem thinkOpenTag_eq : thinkOpenTag = '<' :: opRest := by decide

theorem thinkCloseTag_eq : thinkCloseTag = '<' :: clRest := by decide

theorem removeThinkGo_mono : ∀ (n m : Nat) (s : List Char),
    s.length ≤ n → s.length ≤ m → removeThinkGo n s = removeThinkGo m s := by
  intro n
  induction n with
  | zero =>
    intro m s hn _
    have hs : s = [] := List.eq_nil_of_length_eq_zero (Nat.le_zero.mp hn)
    subst hs
    cases m with
    | zero => rfl
    | succ m' => simp [removeThinkGo, splitFirst, thinkOpenTag]
  | succ n' ih =>
    intro m s hn hm
    cases m with
    | zero =>
      have hs : s = [] := List.eq_nil_of_length_eq_zero (Nat.le_zero.mp hm)
      subst hs
      simp [removeThinkGo, splitFirst, thinkOpenTag]
    | succ m' =>
      simp only [removeThinkGo]
      cases h1 : splitFirst thinkOpenTag s with
      | none => rfl
      | some ar =>
        obtain ⟨a, rest⟩ := ar
        cases h2 : splitFirst thinkCloseTag rest with
        | none => simp only [h2]
        | some br =>
          obtain ⟨b, rest2⟩ := br
          have e1 := splitFirst_some s thinkOpenTag a rest h1
          have e2 := splitFirst_some rest thinkCloseTag b rest2 h2
          have hlen : rest2.length + 15 ≤ s.length := by
            subst e1; subst e2
            simp [thinkOpenTag, thinkCloseTag]
            omega
          have hr2n : rest2.length ≤ n' := by omega
          have hr2m : rest2.length ≤ m' := by omega
          simp only [h2]
          rw [ih m' rest2 hr2n hr2m]

theorem removeThink_of_noOpen (s : List Char)
    (h : splitFirst thinkOpenTag s = none) : removeThink s = s := by
  unfold removeThink
  cases hl : s.length with
  | zero => rfl
  | succ k => simp [removeThinkGo, h]

theorem removeThink_of_noClose (s x y : List Char)
    (h1 : splitFirst thinkOpenTag s = some (x, y))
    (h2 : splitFirst thinkCloseTag y = none) : removeThink s = s := by
  unfold removeThink
  cases hl : s.length with
  | zero => rfl
  | succ k => simp [removeThinkGo, h1, h2]

theorem removeThink_step (s x y u v : List Char)
    (h1 : splitFirst thinkOpenTag s = some (x, y))
    (h2 : splitFirst thinkCloseTag y = some (u, v)) :
    removeThink s = x ++ removeThink v := by
  have e1 := splitFirst_some s thinkOpenTag x y h1
  have e2 := splitFirst_some y thinkCloseTag u v h2
  have hlen : v.length + 15 ≤ s.length := by
    subst e1; subst e2
    simp [thinkOpenTag, thinkCloseTag]
    omega
  obtain ⟨k, hk⟩ : ∃ k, s.length = k + 1 := ⟨s.length - 1, by omega⟩
  unfold removeThink
  rw [hk]
  simp only [removeThinkGo, h1, h2]
  rw [removeThinkGo_mono k v.length v (by omega) (Nat.le_refl _)]

/-- Text before the first think-tag marker passes through untouched. -/
theorem removeThink_ltFree_append (a c : List Char) (ha : '<' ∉ a) :
    removeThink (a ++ c) = a ++ removeThink c := by
  have hsp := splitFirst_append_of_notMem a '<' opRest c ha
  rw [← thinkOpenTag_eq] at hsp
  cases h : splitFirst thinkOpenTag c with
  | none =>
    rw [h] at hsp
    simp only [Option.map_none'] at hsp
    rw [removeThink_of_noOpen _ hsp, removeThink_of_noOpen _ h]
  | some xy =>
    obtain ⟨x, y⟩ := xy
    rw [h] at hsp
    simp only [Option.map_some'] at hsp
    cases h2 : splitFirst thinkCloseTag y with
    | none =>
      rw [removeThink_of_noClose _ _ _ hsp h2, removeThink_of_noClose _ _ _ h h2]
    | some uv =>
      obtain ⟨u, v⟩ := uv
      rw [removeThink_step _ _ _ _ _ hsp h2, removeThink_step _ _ _ _ _ h h2,
        List.append_assoc]

/-- A complete closed reasoning span is removed whole, delimiters included,
when the prefix and the span body contain no tag-marker character. -/
theorem removeThink_strip_closed (a b c : List Char)
    (ha : '<' ∉ a) (hb : '<' ∉ b) :
    removeThink (a ++ thinkOpenTag ++ b ++ thinkCloseTag ++ c)
      = a ++ removeThink c := by
  have h1 : splitFirst thinkOpenTag (a ++ thinkOpenTag ++ (b ++ thinkCloseTag ++ c))
      = some (a, b ++ thinkCloseTag ++ c) := by
    have h := splitFirst_at_marker a '<' opRest (b ++ thinkCloseTag ++ c) ha
    rw [← thinkOpenTag_eq] at h
    exact h
  have h2 : splitFirst thinkCloseTag (b ++ thinkCloseTag ++ c) = some (b, c) := by
    have h := splitFirst_at_marker b '<' clRest c hb
    rw [← thinkCloseTag_eq] at h
    exact h
  have hassoc : a ++ thinkOpenTag ++ b ++ thinkCloseTag ++ c
      = a ++ thinkOpenTag ++ (b ++ thinkCloseTag ++ c) := by
    simp [List.append_assoc]
  rw [hassoc, removeThink_step _ _ _ _ _ h1 h2]

theorem strAppend_assoc (a b c : String) : a ++ b ++ c = a ++ (b ++ c) := by
  apply String.ext
  simp [String.data_append, List.append_assoc]

theorem str_empty_append (s : String) : "" ++ s = s := by
  apply String.ext
  simp [String.data_append]

/-- Two successive answer fragments update the world exactly as their
concatenation does: the closure buffer accumulates and the published
`answer` is recomputed from the whole buffer each time. -/
theorem applyAnswerFrag_comp (sid : Nat) (c1 c2 : String) (w : World) :
    applyAnswerFrag sid c2 (applyAnswerFrag sid c1 w)
      = applyAnswerFrag sid (c1 ++ c2) w := by
  cases h : w.sessions[sid]? with
  | none => simp only [applyAnswerFrag, h]
  | some s =>
    cases hs : s.status with
    | closed => simp only [applyAnswerFrag, h, hs]
    | opened =>
      have hlt : sid < w.sessions.length := by
        have := List.getElem?_eq_some.mp h
        exact this.1
      simp only [applyAnswerFrag, h, hs, List.getElem?_set_self hlt, List.set_set,
        strAppend_assoc]

theorem applyAnswerFrag_foldl (sid : Nat) : ∀ (cs : List String) (c : String) (w : World),
    List.foldl (fun v x => applyAnswerFrag sid x v) (applyAnswerFrag sid c w) cs
      = applyAnswerFrag sid (List.foldl (fun a b => a ++ b) c cs) w := by
  intro cs
  induction cs with
  | nil => intro c w; rfl
  | cons c2 cs' ih =>
    intro c w
    simp only [List.foldl_cons]
    rw [applyAnswerFrag_comp]
    exact ih (c ++ c2) w

/-- A well-formed answer fragment makes `step` act through
`applyAnswerFrag`. -/
theorem step_message_answer (parse : String → Option Fragment)
    (fmt : String → Option String) (sid : Nat) (data : String) (f : Fragment)
    (w : World) (hclean : stripDataLabel data ≠ "")
    (hf : parse (stripDataLabel data) = some f) (hty : f.ftype = "answer") :
    step parse fmt (.message sid data) w = applyAnswerFrag sid f.content w := by
  simp only [step]
  cases h : w.sessions[sid]? with
  | none => simp [applyAnswerFrag, h]
  | some s =>
    cases hs : s.status with
    | closed => simp [applyAnswerFrag, h, hs]
    | opened => simp [hs, hclean, hf, hty]

/-- C1: evaluation at the failing trace — after a second submission while
the first stream is still open, a fragment arriving on the first stream is
still published (the answer snapshot becomes the first session's buffer)
and the first session is still open, not cancelled. -/
theorem priorSessionStillPublishesAfterNewStart :
    wLate.answer = "OLD" ∧
    (wLate.sessions[0]?).map Session.status = some .opened ∧
    wSecond.sessions.length = 2 := by decide

/-- C2: evaluation at the failing input — the composed normalization
pipeline is not idempotent: one pass over "..." yields ". .." and a second
pass turns that into ". . .". -/
theorem punctNormalizeNotIdempotentOnDots :
    processText "..." = ". .." ∧ processText (processText "...") = ". . ." := by
  decide

/-- C3 counterexample: an unclosed opening delimiter does not suppress the
text after it — the buffer passes through verbatim, so the claim's
unclosed-delimiter clause fails on the code. -/
theorem unclosedThinkTextKept :
    processText "<think>hidden" = "<think>hidden" ∧
    occurs "hidden".toList (processText "<think>hidden").toList = true := by
  decide

/-- C3 (amended): the normalizer strips every complete closed reasoning
span, delimiters included (stated for spans whose prefix and body contain
no tag-marker character `<`); an unclosed opening delimiter is passed
through unchanged rather than suppressing the following text. -/
theorem closedThinkSpanStripped (a b c : String)
    (ha : '<' ∉ a.toList) (hb : '<' ∉ b.toList) :
    processText (a ++ "<think>" ++ b ++ "</think>" ++ c) = processText (a ++ c) := by
  have h1 : (a ++ "<think>" ++ b ++ "</think>" ++ c).toList
      = a.toList ++ thinkOpenTag ++ b.toList ++ thinkCloseTag ++ c.toList := by
    simp [String.toList, String.data_append, thinkOpenTag, thinkCloseTag,
      List.append_assoc]
  have h2 : (a ++ c).toList = a.toList ++ c.toList := by
    simp [String.toList, String.data_append]
  have key : removeThink (a ++ "<think>" ++ b ++ "</think>" ++ c).toList
      = removeThink (a ++ c).toList := by
    rw [h1, h2, removeThink_strip_closed _ _ _ ha hb,
      removeThink_ltFree_append _ _ ha]
  unfold processText processTextChars
  rw [key]

/-- C3 witness: the amended theorem applied at a concrete closed span. -/
theorem closedThinkSpanStripped_w :
    ('<' ∉ "Okay. ".toList) ∧ ('<' ∉ "pondering".toList) ∧
    processText ("Okay. " ++ "<think>" ++ "pondering" ++ "</think>" ++ "Done.")
      = processText ("Okay. " ++ "Done.") :=
  ⟨by decide, by decide,
    closedThinkSpanStripped "Okay. " "pondering" "Done." (by decide) (by decide)⟩

/-- C4: appending a non-empty list of answer fragments one at a time, with
the rendered snapshot recomputed after each append, produces exactly the
same world as appending their single concatenation and computing the
transform once: the rendered value is a pure function of the accumulated
raw buffer, independent of chunk boundaries. -/
theorem renderedIndependentOfChunking (sid : Nat) (w : World) (cs : List String)
    (h : cs ≠ []) :
    List.foldl (fun v x => applyAnswerFrag sid x v) w cs
      = applyAnswerFrag sid (joinAll cs) w := by
  cases cs with
  | nil => exact absurd rfl h
  | cons c cs' =>
    simp only [List.foldl_cons, joinAll]
    rw [show ("" ++ c) = c from str_empty_append c]
    exact applyAnswerFrag_foldl sid cs' c w

/-- C4 witness: chunk-independence at a concrete two-fragment split. -/
theorem renderedIndependentOfChunking_w :
    (["### Ti", "tle"] : List String) ≠ [] ∧
    List.foldl (fun v x => applyAnswerFrag 0 x v) wOpen ["### Ti", "tle"]
      = applyAnswerFrag 0 (joinAll ["### Ti", "tle"]) wOpen :=
  ⟨by decide, renderedIndependentOfChunking 0 wOpen ["### Ti", "tle"] (by decide)⟩

/-- C5: the SQL formatting step is total and never surfaces a failure: on
a formatter success it returns the pretty-printed statement, and on a
thrown formatting error it returns the accumulated chunk unchanged,
discarding nothing. -/
theorem formatNeverRaises (fmt : String → Option String) (s : String) :
    (fmt s = none → processSqlChunk fmt s = s) ∧
    (∀ t, fmt s = some t → processSqlChunk fmt s = t) := by
  constructor
  · intro h; simp [processSqlChunk, h]
  · intro t h; simp [processSqlChunk, h]

/-- C5 witness: fallback and success at concrete inputs. -/
theorem formatNeverRaises_w :
    processSqlChunk exFmtOk "SELECT 1 WHERE" = "SELECT 1 WHERE" ∧
    processSqlChunk exFmtOk "SELECT 1" = "SELECT\n  1" :=
  ⟨(formatNeverRaises exFmtOk "SELECT 1 WHERE").1 (by decide),
   (formatNeverRaises exFmtOk "SELECT 1").2 "SELECT\n  1" (by decide)⟩

/-- C6 counterexample: calling the submission entry point with the empty
string while question text is stored does not fail fast — no warning toast
is raised, a transport is opened and the loading state is entered. -/
theorem emptyQueryMayStartTransport :
    (step exParse exFmt (.submit (some "")) wStored).toasts = [] ∧
    (step exParse exFmt (.submit (some "")) wStored).sessions.length = 1 ∧
    (step exParse exFmt (.submit (some "")) wStored).loading = true := by decide

/-- C6 (amended): a non-empty whitespace-only query always fails fast with
only the warning toast — no transport opened, no other state change; an
empty query falls back to the stored question and fails fast exactly when
that stored text is blank as well. -/
theorem blankQueryFailsFast (parse : String → Option Fragment)
    (fmt : String → Option String) (q : String) (w : World) :
    (q ≠ "" → trimChars q.toList = [] →
      step parse fmt (.submit (some q)) w
        = { w with toasts := w.toasts ++ ["Please enter a question"] }) ∧
    (q = "" → trimChars w.question.toList = [] →
      step parse fmt (.submit (some q)) w
        = { w with toasts := w.toasts ++ ["Please enter a question"] }) := by
  constructor
  · intro hne hblank
    have hblank2 : trimChars q.data = [] := hblank
    simp [step, hne, hblank2]
  · intro he hblank
    subst he
    have hblank2 : trimChars w.question.data = [] := hblank
    simp [step, hblank2]

/-- C6 witness: a whitespace-only query fails fast on a state with stored
question text. -/
theorem blankQueryFailsFast_w :
    step exParse exFmt (.submit (some "   ")) wStored
      = { wStored with toasts := wStored.toasts ++ ["Please enter a question"] } :=
  (blankQueryFailsFast exParse exFmt "   " wStored).1 (by decide) (by decide)

/-- C7: a fragment whose payload fails to parse is dropped with no effect
at all: the session does not fail, nothing is appended to any buffer, and
subsequent fragments are processed exactly as if it had never arrived. -/
theorem malformedFragmentDropped (parse : String → Option Fragment)
    (fmt : String → Option String) (sid : Nat) (data : String) (w : World)
    (hclean : stripDataLabel data ≠ "")
    (hparse : parse (stripDataLabel data) = none) :
    step parse fmt (.message sid data) w = w := by
  simp only [step]
  cases h : w.sessions[sid]? with
  | none => rfl
  | some s =>
    cases hs : s.status with
    | closed => simp [hs]
    | opened => simp [hs, hclean, hparse]

/-- C7 witness: a malformed payload leaves the open-session state
untouched. -/
theorem malformedFragmentDropped_w :
    step badParse exFmt (.message 0 "garbage") wOpen = wOpen :=
  malformedFragmentDropped badParse exFmt 0 "garbage" wOpen (by decide) (by decide)

/-- C8 counterexample: a transport error produces no user-visible
notification — the toast list stays empty (only the console is written) —
although the partial answer snapshot is retained. -/
theorem transportErrorNoNotification :
    (step exParse exFmt (.error 0) wErr).toasts = [] ∧
    (step exParse exFmt (.error 0) wErr).answer = "OLD" := by decide

/-- C8 (amended): on a transport error the session's connection is closed
and the loading flag cleared; the partial buffers and published snapshots
are retained unchanged, and no user-visible notification is added. -/
theorem transportErrorClosesRetains (parse : String → Option Fragment)
    (fmt : String → Option String) (sid : Nat) (w : World) (s : Session)
    (h : w.sessions[sid]? = some s) (hs : s.status = .opened) :
    step parse fmt (.error sid) w
      = { w with sessions := w.sessions.set sid { s with status := .closed },
                 loading := false } := by
  simp only [step, h, hs]

/-- C8 witness: the transport-error theorem applied to the state whose
open session holds a partial answer buffer. -/
theorem transportErrorClosesRetains_w :
    step exParse exFmt (.error 0) wErr
      = { wErr with
            sessions := wErr.sessions.set 0 ⟨"q", .closed, "OLD", ""⟩,
            loading := false } :=
  transportErrorClosesRetains exParse exFmt 0 wErr ⟨"q", .opened, "OLD", ""⟩
    (by decide) (by decide)

/-- C9: on the rendered answer built from the two example fragments, the
segmenter yields the title "Title", exactly the two flight items in
arrival order, and a summary containing "cheapest is A". -/
theorem segmentExampleCorrect :
    (segmentAnswer exRendered).title = some "Title" ∧
    (segmentAnswer exRendered).items = ["✈️ Flight A", "✈️ Flight B"] ∧
    occurs "cheapest is A".toList
      ((segmentAnswer exRendered).summary.getD "").toList = true := by decide

/-- C10: an empty-string argument with non-blank stored question text is
treated exactly like no argument: the stored question is validated and
used to open the transport, and no warning toast is produced. -/
theorem emptyArgFallsBackToStored (parse : String → Option Fragment)
    (fmt : String → Option String) (w : World)
    (h : trimChars w.question.toList ≠ []) :
    step parse fmt (.submit (some "")) w = step parse fmt (.submit none) w ∧
    step parse fmt (.submit (some "")) w
      = { w with
            loading := true, streamingSql := true, answer := "", sqlQuery := "",
            sessions := w.sessions ++ [⟨w.question, .opened, "", ""⟩] } := by
  constructor
  · rfl
  · have h2 : ¬ trimChars w.question.data = [] := h
    simp [step, h2]

/-- C10 witness: the empty argument with a stored question starts the
session on the stored text with no toast. -/
theorem emptyArgFallsBackToStored_w :
    step exParse exFmt (.submit (some "")) wStored
      = step exParse exFmt (.submit none) wStored ∧
    step exParse exFmt (.submit (some "")) wStored
      = { wStored with
            loading := true, streamingSql := true, answer := "", sqlQuery := "",
            sessions := wStored.sessions ++ [⟨wStored.question, .opened, "", ""⟩] } :=
  emptyArgFallsBackToStored exParse exFmt wStored (by decide)
